import Mathlib

/-!
Shallow embedding of `src/lib/transaction/sighash.js` (glink-bitcore-zcashy):
the legacy and Sapling-era signature-hash builders, the version dispatcher,
and the sign/verify service layered on top.

Bytes are modelled as `List Nat` (each entry a byte value).  The external
collaborators that the module only consumes (blake2b, sha256d, the ECDSA
primitive) are abstracted into a `Prims` record of function parameters, so
every theorem quantifies over them.  Serialization helpers (BufferWriter's
little-endian and varint writers, Transaction/Output canonical serialization,
Script's codeseparator removal) live outside this file's source and are
modelled from the spec where marked.
-/

namespace Sighash

/-- A byte string: list of byte values. -/
abbrev Bytes := List Nat

/-- A script is an opaque byte sequence (spec section 3: "Script: opaque byte
sequence"). -/
abbrev Script := List Nat

/-- Modelled from the spec: `BufferWriter.writeUInt32LE` — 4-byte
little-endian encoding of an unsigned 32-bit value (general
byte-serialization helper, outside `src/`). -/
def u32LE (n : Nat) : Bytes :=
  [n % 256, n / 256 % 256, n / 65536 % 256, n / 16777216 % 256]

/-- Modelled from the spec: `BufferWriter.writeUInt64LEBN` — 8-byte
little-endian encoding of an unsigned 64-bit value. -/
def u64LE (n : Nat) : Bytes :=
  [n % 256, n / 256 % 256, n / 65536 % 256, n / 16777216 % 256,
   n / 4294967296 % 256, n / 1099511627776 % 256,
   n / 281474976710656 % 256, n / 72057594037927936 % 256]

/-- Modelled from the spec: `BufferWriter.writeUInt16LE` (used by varint). -/
def u16LE (n : Nat) : Bytes := [n % 256, n / 256 % 256]

/-- Modelled from the spec: `BufferWriter.writeVarintNum` — Bitcoin
compact variable-length integer. -/
def varint (n : Nat) : Bytes :=
  if n < 253 then [n]
  else if n < 65536 then 253 :: u16LE n
  else if n < 4294967296 then 254 :: u32LE n
  else 255 :: u64LE n

/-- The transaction output view required by the core (value in smallest
unit, locking script). -/
structure Output where
  satoshis : Nat
  script : Script
deriving DecidableEq, Repr, Inhabited

/-- The transaction input view required by the core: previous transaction
id (32 bytes, natural order), output index, sequence number, script slot,
and the referenced spent output (read for its value). -/
structure Input where
  prevTxId : Bytes
  outputIndex : Nat
  sequenceNumber : Nat
  script : Script
  output : Output
deriving DecidableEq, Repr, Inhabited

/-- The transaction view required by the core (spec section 3).  The
consensus-branch-id override field `branchId` keeps JavaScript truthiness:
the source guards it with `if (transaction.branchId)`, so the value `0`
encodes an absent (or falsy) override. -/
structure Transaction where
  version : Nat
  nVersionGroupId : Nat
  inputs : List Input
  outputs : List Output
  nLockTime : Nat
  nExpiryHeight : Nat
  valueBalance : Nat
  branchId : Nat
deriving DecidableEq, Repr, Inhabited

/-- The external primitives consumed by the module: the personalized
256-bit hash (blake2b: 16-byte personalization and data to a 32-byte
digest), the double SHA-256 (`Hash.sha256sha256`), and the curve primitive
with little-endian digest interpretation (`ECDSA.sign` / `ECDSA.verify`,
with the signature's curve data abstracted to a single value and public
keys to naturals). -/
structure Prims where
  blake2b : Bytes → Bytes → Bytes
  sha256sha256 : Bytes → Bytes
  ecdsaSignLittle : Bytes → Nat → Nat
  ecdsaVerifyLittle : Bytes → Nat → Nat → Bool

/-- ASCII bytes of a personalization string (`Buffer.from(personalization)`
for the ASCII tags used by the source). -/
def pers16 (s : String) : Bytes := s.data.map Char.toNat

/-- `var ZERO = Buffer.from('0000...0000','hex')` — the all-zero 32-byte
value. -/
def ZERO32 : Bytes := List.replicate 32 0

/-- `var SIGHASH_SINGLE_BUG = '0000...0001'` as the bytes of
`new Buffer(SIGHASH_SINGLE_BUG, 'hex')`: 31 zero bytes then `0x01`. -/
def SIGHASH_SINGLE_BUG : Bytes := List.replicate 31 0 ++ [1]

/-- `var DEFAULT_BRANCH_ID = 0x76b809bb`. -/
def DEFAULT_BRANCH_ID : Nat := 0x76b809bb

/-- `Signature.SIGHASH_ALL` (external constant; spec section 6: ALL=1). -/
def SIGHASH_ALL : Nat := 1
/-- `Signature.SIGHASH_NONE` (NONE=2). -/
def SIGHASH_NONE : Nat := 2
/-- `Signature.SIGHASH_SINGLE` (SINGLE=3). -/
def SIGHASH_SINGLE : Nat := 3
/-- `Signature.SIGHASH_ANYONECANPAY` (the 0x80 modifier bit). -/
def SIGHASH_ANYONECANPAY : Nat := 0x80

/-- Modelled from the spec: `Output.toBufferWriter` — canonical output
serialization: 8-byte little-endian value, then varint-length-prefixed
locking-script bytes. -/
def outputToBuffer (o : Output) : Bytes :=
  u64LE o.satoshis ++ varint o.script.length ++ o.script

/-- Modelled from the spec: `Input.toBufferWriter` — canonical input
serialization: reversed previous-transaction-id, 4-byte little-endian
output index, varint-length-prefixed script bytes, 4-byte little-endian
sequence number. -/
def inputToBuffer (i : Input) : Bytes :=
  i.prevTxId.reverse ++ u32LE i.outputIndex ++ varint i.script.length
    ++ i.script ++ u32LE i.sequenceNumber

/-- Modelled from the spec: `Transaction.toBuffer` for the legacy path —
canonical transaction bytes: 4-byte version, varint input count, the
inputs in order, varint output count, the outputs in order, 4-byte lock
time. -/
def txToBuffer (tx : Transaction) : Bytes :=
  u32LE (tx.version % 2 ^ 32) ++ varint tx.inputs.length
    ++ (tx.inputs.map inputToBuffer).flatten
    ++ varint tx.outputs.length ++ (tx.outputs.map outputToBuffer).flatten
    ++ u32LE tx.nLockTime

/-- `GetPrevoutHash(tx)`: for every input, reversed `prevTxId` then
little-endian `outputIndex`, hashed with personalization
`ZcashPrevoutHash`. -/
def GetPrevoutHash (P : Prims) (tx : Transaction) : Bytes :=
  P.blake2b (pers16 "ZcashPrevoutHash")
    ((tx.inputs.map fun i => i.prevTxId.reverse ++ u32LE i.outputIndex).flatten)

/-- `GetSequenceHash(tx)`: every input's little-endian sequence number,
hashed with personalization `ZcashSequencHash`. -/
def GetSequenceHash (P : Prims) (tx : Transaction) : Bytes :=
  P.blake2b (pers16 "ZcashSequencHash")
    ((tx.inputs.map fun i => u32LE i.sequenceNumber).flatten)

/-- `GetOutputsHash(tx, n)`: all outputs serialized in order when `n` is
undefined, else only output `n`; personalization `ZcashOutputsHash`. -/
def GetOutputsHash (P : Prims) (tx : Transaction) (n : Option Nat) : Bytes :=
  P.blake2b (pers16 "ZcashOutputsHash")
    (match n with
     | none => (tx.outputs.map outputToBuffer).flatten
     | some k => outputToBuffer (tx.outputs.getD k default))

/-- Lines 104–107: `hashPrevouts` is `GetPrevoutHash` unless
ANYONECANPAY is set, in which case it stays `ZERO`. -/
def sapHashPrevouts (P : Prims) (tx : Transaction) (sighashType : Nat) : Bytes :=
  if sighashType &&& SIGHASH_ANYONECANPAY = 0 then GetPrevoutHash P tx else ZERO32

/-- Lines 110–115: `hashSequence` is `GetSequenceHash` unless
ANYONECANPAY is set or the low selector is SINGLE or NONE. -/
def sapHashSequence (P : Prims) (tx : Transaction) (sighashType : Nat) : Bytes :=
  if sighashType &&& SIGHASH_ANYONECANPAY = 0 ∧ sighashType &&& 31 ≠ SIGHASH_SINGLE
      ∧ sighashType &&& 31 ≠ SIGHASH_NONE then
    GetSequenceHash P tx
  else ZERO32

/-- Lines 118–123: `hashOutputs` — all outputs unless the selector is
SINGLE or NONE; for SINGLE with `inputNumber` in range, only that
output; otherwise `ZERO`. -/
def sapHashOutputs (P : Prims) (tx : Transaction) (sighashType inputNumber : Nat) : Bytes :=
  if sighashType &&& 31 ≠ SIGHASH_SINGLE ∧ sighashType &&& 31 ≠ SIGHASH_NONE then
    GetOutputsHash P tx none
  else if sighashType &&& 31 = SIGHASH_SINGLE ∧ inputNumber < tx.outputs.length then
    GetOutputsHash P tx (some inputNumber)
  else ZERO32

/-- `sighashSapling(transaction, sighashType, inputNumber, subscript)`
(lines 24–172): build the Sapling-era preimage field by field, hash it
with the `ZcashSigHash`-plus-branch-id personalization, and return the
reversed digest.  `writeInt32LE(version | (1 << 31))` writes the same four
bytes as the unsigned little-endian encoding of the low 32 bits of the
version with bit 31 set. -/
def sighashSapling (P : Prims) (tx : Transaction) (sighashType inputNumber : Nat)
    (subscript : Script) : Bytes :=
  let input := tx.inputs.getD inputNumber default
  let preimage :=
    u32LE ((tx.version % 2 ^ 32) ||| 2 ^ 31)
    ++ u32LE tx.nVersionGroupId
    ++ sapHashPrevouts P tx sighashType
    ++ sapHashSequence P tx sighashType
    ++ sapHashOutputs P tx sighashType inputNumber
    ++ ZERO32
    ++ ZERO32
    ++ ZERO32
    ++ u32LE tx.nLockTime
    ++ u32LE tx.nExpiryHeight
    ++ u64LE tx.valueBalance
    ++ u32LE (sighashType % 2 ^ 32)
    ++ input.prevTxId.reverse
    ++ u32LE input.outputIndex
    ++ varint subscript.length
    ++ subscript
    ++ u64LE input.output.satoshis
    ++ u32LE input.sequenceNumber
  let consensusBranchId := if tx.branchId ≠ 0 then tx.branchId else DEFAULT_BRANCH_ID
  (P.blake2b (pers16 "ZcashSigHash" ++ u32LE consensusBranchId) preimage).reverse

/-- Modelled from the spec: `Script.prototype.removeCodeseparators` —
"removal of a specific embedded marker opcode"; the opcode value is
`OP_CODESEPARATOR = 0xab`. -/
def removeCodeseparators (s : Script) : Script := s.filter (· ≠ 0xab)

/-- Lines 200–205: every input's script is blanked
(`setScript(Script.empty())`); then input `inputNumber` is replaced by a
copy carrying the (codeseparator-stripped) subscript. -/
def legacyInputsScripts (tx : Transaction) (inputNumber : Nat) (subscript : Script) :
    List Input :=
  (tx.inputs.map fun i => { i with script := ([] : Script) }).set inputNumber
    { tx.inputs.getD inputNumber default with script := subscript }

/-- The loop of lines 211–215: zero the sequence number of every input
except `inputNumber`. -/
def zeroOtherSequences (inputNumber : Nat) (l : List Input) : List Input :=
  l.enum.map fun p => if p.1 = inputNumber then p.2 else { p.2 with sequenceNumber := 0 }

/-- Lines 207–216: after script substitution, the sequence numbers of all
inputs other than `inputNumber` are zeroed when the low selector is NONE
or SINGLE. -/
def legacySeqAdjusted (tx : Transaction) (sighashType inputNumber : Nat)
    (subscript : Script) : List Input :=
  if sighashType &&& 31 = SIGHASH_NONE ∨ sighashType &&& 31 = SIGHASH_SINGLE then
    zeroOtherSequences inputNumber (legacyInputsScripts tx inputNumber subscript)
  else legacyInputsScripts tx inputNumber subscript

/-- Lines 231–234: the null output — value all-bits-one 64-bit
(`BITS_64_ON`), empty script. -/
def nullOutput : Output := { satoshis := 0xffffffffffffffff, script := [] }

/-- Lines 218–236 (output overrides, non-bug case): NONE clears the output
list; SINGLE truncates it to `inputNumber + 1` entries and replaces every
output before `inputNumber` with the null output; any other selector
leaves the outputs untouched.  (The SINGLE case is only reached with
`inputNumber < tx.outputs.length`; the bug branch is handled by the
caller.) -/
def legacyOutputs (tx : Transaction) (sighashType inputNumber : Nat) : List Output :=
  if sighashType &&& 31 = SIGHASH_NONE then []
  else if sighashType &&& 31 = SIGHASH_SINGLE then
    (tx.outputs.take (inputNumber + 1)).enum.map fun p =>
      if p.1 < inputNumber then nullOutput else p.2
  else tx.outputs

/-- The transaction copy as it stands at serialization time (line 243):
script substitution, sequence zeroing and output overrides applied, and —
last — the ANYONECANPAY collapse of the input list to the single input
`inputNumber` (lines 238–240). -/
def legacyTxCopy (tx : Transaction) (sighashType inputNumber : Nat)
    (subscript : Script) : Transaction :=
  { tx with
    inputs :=
      if sighashType &&& SIGHASH_ANYONECANPAY ≠ 0 then
        [(legacySeqAdjusted tx sighashType inputNumber subscript).getD inputNumber default]
      else legacySeqAdjusted tx sighashType inputNumber subscript
    outputs := legacyOutputs tx sighashType inputNumber }

/-- The legacy branch of `sighash` (lines 192–248): strip codeseparators
from a copy of the subscript, apply the overrides on a copy of the
transaction, and double-SHA-256 the serialized copy followed by the 4-byte
little-endian signature type; the digest is returned reversed.  For
SIGHASH_SINGLE with `inputNumber` at or past the output count, the fixed
`SIGHASH_SINGLE_BUG` constant is returned instead (lines 224–226). -/
def sighashLegacy (P : Prims) (tx : Transaction) (sighashType inputNumber : Nat)
    (subscript : Script) : Bytes :=
  let sub := removeCodeseparators subscript
  if sighashType &&& 31 = SIGHASH_SINGLE ∧ tx.outputs.length ≤ inputNumber then
    SIGHASH_SINGLE_BUG
  else
    (P.sha256sha256 (txToBuffer (legacyTxCopy tx sighashType inputNumber sub)
      ++ u32LE (sighashType % 2 ^ 32))).reverse

/-- `sighash(transaction, sighashType, inputNumber, subscript)`
(lines 184–249): version ≥ 4 routes to the Sapling-era builder, everything
else to the legacy builder. -/
def sighash (P : Prims) (tx : Transaction) (sighashType inputNumber : Nat)
    (subscript : Script) : Bytes :=
  if 4 ≤ tx.version then sighashSapling P tx sighashType inputNumber subscript
  else sighashLegacy P tx sighashType inputNumber subscript

/-- The signature value returned by `ECDSA.sign(...).set({nhashtype})`:
the curve signature data (abstracted) tagged with the signature type it
was produced under.  `nhashtype` is optional because `verify` must check
its presence. -/
structure Sig where
  value : Nat
  nhashtype : Option Nat
deriving DecidableEq, Repr, Inhabited

/-- `sign(transaction, privateKey, sighashType, inputIndex, subscript)`
(lines 262–268): digest via the dispatcher, ECDSA over it with
little-endian interpretation, signature type attached. -/
def sign (P : Prims) (tx : Transaction) (privateKey : Nat)
    (sighashType inputIndex : Nat) (subscript : Script) : Sig :=
  { value := P.ecdsaSignLittle (sighash P tx sighashType inputIndex subscript) privateKey
    nhashtype := some sighashType }

/-- `verify(transaction, signature, publicKey, inputIndex, subscript)`
(lines 281–286): precondition checks on the presence of the transaction,
the signature and its carried `nhashtype` (the two `$.checkArgument`
calls), then the recomputed digest is checked by the curve primitive.
Absence is modelled with `Option`; a precondition violation is
`Except.error ()`. -/
def verify (P : Prims) (otx : Option Transaction) (osig : Option Sig)
    (publicKey inputIndex : Nat) (subscript : Script) : Except Unit Bool :=
  match otx with
  | none => .error ()
  | some tx =>
    match osig with
    | none => .error ()
    | some sig =>
      match sig.nhashtype with
      | none => .error ()
      | some t =>
        .ok (P.ecdsaVerifyLittle (sighash P tx t inputIndex subscript) sig.value publicKey)

/-- Modelled from the spec: `Transaction.shallowCopy` (not under `src/`)
— "a way to obtain an immutable snapshot": a detached transaction value
with the same fields, sharing no mutable cell with the caller's. -/
def shallowCopySpec (tx : Transaction) : Transaction := tx

/-- Modelled from the spec: `new Script(subscript)` (not under `src/`) —
a detached copy of the script bytes, so codeseparator removal acts on the
copy only. -/
def scriptCopySpec (s : Script) : Script := s

/-- The caller-visible and callee-local object cells during one legacy
`sighash` call: the caller's transaction and subscript, and the builder's
working copies.  Every assignment the source performs targets the
`txcopy`/`sub` cells; the theorem for the frame property shows the caller
cells come back unchanged. -/
structure CallState where
  callerTx : Transaction
  callerSub : Script
  txcopy : Transaction
  sub : Script
deriving Repr

/-- Lines 238–248 applied to a call state: the ANYONECANPAY collapse of
the copy's input list, then serialization, double hashing and byte
reversal; returns the digest together with the caller's cells. -/
def legacyFinish (P : Prims) (t n : Nat) (st : CallState) :
    Bytes × Transaction × Script :=
  let st' :=
    if t &&& SIGHASH_ANYONECANPAY ≠ 0 then
      { st with txcopy := { st.txcopy with inputs := [st.txcopy.inputs.getD n default] } }
    else st
  ((P.sha256sha256 (txToBuffer st'.txcopy ++ u32LE (t % 2 ^ 32))).reverse,
    st'.callerTx, st'.callerSub)

/-- The legacy branch of `sighash` translated statement by statement over
a call state, recording which object each line writes: the shallow copy
(line 194), the subscript copy and its codeseparator removal (lines
197–198), the script substitutions (lines 200–205), the sequence zeroing
(lines 207–216), the output overrides with the early SINGLE-bug return
(lines 218–236), and the finish (lines 238–248).  Returns the digest and
the caller's cells as seen after the call. -/
def sighashLegacyRun (P : Prims) (tx : Transaction) (t n : Nat) (s : Script) :
    Bytes × Transaction × Script :=
  let st0 : CallState := { callerTx := tx, callerSub := s,
                           txcopy := shallowCopySpec tx, sub := scriptCopySpec s }
  let st1 := { st0 with sub := removeCodeseparators st0.sub }
  let st2 := { st1 with txcopy := { st1.txcopy with
    inputs := legacyInputsScripts st1.txcopy n st1.sub } }
  let st3 := { st2 with txcopy := { st2.txcopy with
    inputs := if t &&& 31 = SIGHASH_NONE ∨ t &&& 31 = SIGHASH_SINGLE then
        zeroOtherSequences n st2.txcopy.inputs
      else st2.txcopy.inputs } }
  if t &&& 31 = SIGHASH_NONE then
    legacyFinish P t n { st3 with txcopy := { st3.txcopy with outputs := [] } }
  else if t &&& 31 = SIGHASH_SINGLE then
    if st3.txcopy.outputs.length ≤ n then
      (SIGHASH_SINGLE_BUG, st3.callerTx, st3.callerSub)
    else
      legacyFinish P t n { st3 with txcopy := { st3.txcopy with
        outputs := (st3.txcopy.outputs.take (n + 1)).enum.map fun p =>
          if p.1 < n then nullOutput else p.2 } }
  else legacyFinish P t n st3

/-- The full dispatcher over a call state.  The Sapling-era builder only
reads the transaction and subscript (it writes to fresh buffer writers),
so there the caller's cells pass through untouched. -/
def sighashRun (P : Prims) (tx : Transaction) (t n : Nat) (s : Script) :
    Bytes × Transaction × Script :=
  if 4 ≤ tx.version then (sighashSapling P tx t n s, tx, s)
  else sighashLegacyRun P tx t n s

/-- A concrete instance of the external primitives, used to evaluate the
theorems at specific inputs: the hashes are injective-enough stand-ins and
the curve primitive accepts exactly the signature value determined by the
digest length and the key, with the public key equal to the private key. -/
def P0 : Prims :=
  { blake2b := fun p d => p ++ d
    sha256sha256 := fun d => d
    ecdsaSignLittle := fun h k => h.length + k
    ecdsaVerifyLittle := fun h s pk => s == h.length + pk }

/-- A concrete legacy transaction: version 1, one input, one output. -/
def tx0 : Transaction :=
  { version := 1
    nVersionGroupId := 0
    inputs := [{ prevTxId := List.replicate 32 0
                 outputIndex := 0
                 sequenceNumber := 0xffffffff
                 script := [0x51]
                 output := { satoshis := 50, script := [] } }]
    outputs := [{ satoshis := 40, script := [0x51] }]
    nLockTime := 0
    nExpiryHeight := 0
    valueBalance := 0
    branchId := 0 }

/-- A concrete legacy transaction with no outputs (for the SINGLE bug). -/
def txW : Transaction := { tx0 with outputs := [] }

/-- A concrete Sapling-era transaction (version 4). -/
def tx4 : Transaction := { tx0 with version := 4 }

/-- A concrete legacy transaction with two inputs. -/
def tx2in : Transaction :=
  { tx0 with
    inputs := tx0.inputs ++ [{ prevTxId := List.replicate 32 7
                               outputIndex := 1
                               sequenceNumber := 5
                               script := [0x52]
                               output := { satoshis := 9, script := [] } }] }

/-- `tx2in` with the second (non-signing) input's script and sequence
number mutated. -/
def tx2in' : Transaction :=
  { tx0 with
    inputs := tx0.inputs ++ [{ prevTxId := List.replicate 32 7
                               outputIndex := 1
                               sequenceNumber := 77
                               script := [0x63]
                               output := { satoshis := 9, script := [] } }] }

/-! ### Helper lemmas -/

theorem length_legacyInputsScripts (tx : Transaction) (n : Nat) (s : Script) :
    (legacyInputsScripts tx n s).length = tx.inputs.length := by
  simp [legacyInputsScripts]

theorem length_zeroOtherSequences (n : Nat) (l : List Input) :
    (zeroOtherSequences n l).length = l.length := by
  simp [zeroOtherSequences]

theorem getD_zeroOtherSequences (n i : Nat) (l : List Input) (h : i < l.length) :
    (zeroOtherSequences n l).getD i default =
      if i = n then l.getD i default
      else { l.getD i default with sequenceNumber := 0 } := by
  have h1 : i < (zeroOtherSequences n l).length := by
    rw [length_zeroOtherSequences]; exact h
  rw [List.getD_eq_getElem _ _ h1, List.getD_eq_getElem _ _ h]
  simp [zeroOtherSequences, List.getElem_enum]

theorem getD_legacyInputsScripts_self (tx : Transaction) (n : Nat) (s : Script)
    (hn : n < tx.inputs.length) :
    (legacyInputsScripts tx n s).getD n default =
      { tx.inputs.getD n default with script := s } := by
  have h1 : n < (legacyInputsScripts tx n s).length := by
    rw [length_legacyInputsScripts]; exact hn
  rw [List.getD_eq_getElem _ _ h1, List.getD_eq_getElem _ _ hn]
  simp [legacyInputsScripts, List.getElem_set, List.getElem?_eq_getElem hn]

theorem getD_legacyInputsScripts_other (tx : Transaction) (n i : Nat) (s : Script)
    (hi : i < tx.inputs.length) (hne : i ≠ n) :
    (legacyInputsScripts tx n s).getD i default =
      { tx.inputs.getD i default with script := ([] : Script) } := by
  have h1 : i < (legacyInputsScripts tx n s).length := by
    rw [length_legacyInputsScripts]; exact hi
  rw [List.getD_eq_getElem _ _ h1, List.getD_eq_getElem _ _ hi]
  simp [legacyInputsScripts, List.getElem_set, Ne.symm hne]

theorem length_legacySeqAdjusted (tx : Transaction) (t n : Nat) (s : Script) :
    (legacySeqAdjusted tx t n s).length = tx.inputs.length := by
  unfold legacySeqAdjusted
  split <;> simp [length_zeroOtherSequences, length_legacyInputsScripts]

theorem getD_legacySeqAdjusted_self (tx : Transaction) (t n : Nat) (s : Script)
    (hn : n < tx.inputs.length) :
    (legacySeqAdjusted tx t n s).getD n default =
      { tx.inputs.getD n default with script := s } := by
  unfold legacySeqAdjusted
  split
  · rw [getD_zeroOtherSequences _ _ _ (by rw [length_legacyInputsScripts]; exact hn),
      if_pos rfl, getD_legacyInputsScripts_self tx n s hn]
  · exact getD_legacyInputsScripts_self tx n s hn

/-! ### C2: the legacy SIGHASH_SINGLE bug -/

/-- C2: for every transaction with version < 4, when the low selector of
the signature type is SINGLE and `inputNumber` is at or past the output
count, `sighash` returns exactly the 32-byte constant with byte value 1 in
the last position — independently of the hash primitives (no preimage is
hashed), of every other transaction field, and of the ANYONECANPAY bit. -/
theorem legacy_single_bug (P : Prims) (tx : Transaction) (t n : Nat) (sub : Script)
    (hv : tx.version < 4) (hs : t &&& 31 = SIGHASH_SINGLE)
    (ho : tx.outputs.length ≤ n) (_hn : n < tx.inputs.length) :
    sighash P tx t n sub = List.replicate 31 0 ++ [1] := by
  unfold sighash sighashLegacy
  rw [if_neg (by omega), if_pos ⟨hs, ho⟩]
  rfl

/-- Witness for C2 at a concrete transaction (version 1, one input, no
outputs) under SINGLE combined with ANYONECANPAY. -/
theorem legacy_single_bug_witness :
    txW.version < 4 ∧ (0x83 &&& 31 : Nat) = SIGHASH_SINGLE ∧
      txW.outputs.length ≤ 0 ∧ 0 < txW.inputs.length ∧
      sighash P0 txW 0x83 0 [] = List.replicate 31 0 ++ [1] :=
  ⟨by decide, by decide, by decide, by decide,
    legacy_single_bug P0 txW 0x83 0 [] (by decide) (by decide) (by decide) (by decide)⟩

/-! ### C3: the Sapling-era preimage layout and finalization -/

/-- C3: for every transaction with version ≥ 4, `sighash` hashes the
preimage consisting of exactly (in order) the 4-byte version with bit 31
forced to 1, the version-group id, the six 32-byte sub-hashes, the lock
time, the expiry height, the 8-byte value balance, the 4-byte unsigned
signature type, the reversed prevTxId and output index of input
`inputNumber`, the varint-length-prefixed subscript bytes, the 8-byte
spent-output value and the 4-byte sequence number, with a personalized
hash whose 16-byte personalization is the ASCII prefix `ZcashSigHash`
followed by the little-endian consensus-branch id (the transaction's
override when present, else `0x76b809bb`), and returns the 32 bytes
reversed. -/
theorem sapling_layout (P : Prims) (tx : Transaction) (t n : Nat) (sub : Script)
    (hv : 4 ≤ tx.version) :
    sighash P tx t n sub =
      (P.blake2b
        (pers16 "ZcashSigHash"
          ++ u32LE (if tx.branchId ≠ 0 then tx.branchId else DEFAULT_BRANCH_ID))
        (u32LE ((tx.version % 2 ^ 32) ||| 2 ^ 31)
          ++ u32LE tx.nVersionGroupId
          ++ sapHashPrevouts P tx t
          ++ sapHashSequence P tx t
          ++ sapHashOutputs P tx t n
          ++ ZERO32 ++ ZERO32 ++ ZERO32
          ++ u32LE tx.nLockTime
          ++ u32LE tx.nExpiryHeight
          ++ u64LE tx.valueBalance
          ++ u32LE (t % 2 ^ 32)
          ++ (tx.inputs.getD n default).prevTxId.reverse
          ++ u32LE (tx.inputs.getD n default).outputIndex
          ++ varint sub.length
          ++ sub
          ++ u64LE (tx.inputs.getD n default).output.satoshis
          ++ u32LE (tx.inputs.getD n default).sequenceNumber)).reverse := by
  unfold sighash
  rw [if_pos hv]
  rfl

/-- Witness for C3 at the concrete version-4 transaction with no branch-id
override. -/
theorem sapling_layout_witness :
    4 ≤ tx4.version ∧
      sighash P0 tx4 1 0 [0x51] =
        (P0.blake2b
          (pers16 "ZcashSigHash"
            ++ u32LE (if tx4.branchId ≠ 0 then tx4.branchId else DEFAULT_BRANCH_ID))
          (u32LE ((tx4.version % 2 ^ 32) ||| 2 ^ 31)
            ++ u32LE tx4.nVersionGroupId
            ++ sapHashPrevouts P0 tx4 1
            ++ sapHashSequence P0 tx4 1
            ++ sapHashOutputs P0 tx4 1 0
            ++ ZERO32 ++ ZERO32 ++ ZERO32
            ++ u32LE tx4.nLockTime
            ++ u32LE tx4.nExpiryHeight
            ++ u64LE tx4.valueBalance
            ++ u32LE (1 % 2 ^ 32)
            ++ (tx4.inputs.getD 0 default).prevTxId.reverse
            ++ u32LE (tx4.inputs.getD 0 default).outputIndex
            ++ varint ([0x51] : Script).length
            ++ [0x51]
            ++ u64LE (tx4.inputs.getD 0 default).output.satoshis
            ++ u32LE (tx4.inputs.getD 0 default).sequenceNumber)).reverse :=
  ⟨by decide, sapling_layout P0 tx4 1 0 [0x51] (by decide)⟩

/-! ### C4: the Sapling-era prevouts and sequence sub-hashes -/

/-- C4: the prevouts sub-hash is the personalized hash of every input's
reversed prevTxId and little-endian output index in original order, unless
ANYONECANPAY is set, in which case it is all-zero; the sequence sub-hash
is the personalized hash of every input's little-endian sequence number in
original order, unless ANYONECANPAY is set or the selector is SINGLE or
NONE, in which case it is all-zero; in particular under
SINGLE|ANYONECANPAY both are the all-zero 32-byte value. -/
theorem sapling_prevouts_sequence (P : Prims) (tx : Transaction) (t : Nat) :
    (t &&& SIGHASH_ANYONECANPAY = 0 →
      sapHashPrevouts P tx t =
        P.blake2b (pers16 "ZcashPrevoutHash")
          ((tx.inputs.map fun i => i.prevTxId.reverse ++ u32LE i.outputIndex).flatten))
    ∧ (t &&& SIGHASH_ANYONECANPAY ≠ 0 → sapHashPrevouts P tx t = ZERO32)
    ∧ (t &&& SIGHASH_ANYONECANPAY = 0 → t &&& 31 ≠ SIGHASH_SINGLE →
        t &&& 31 ≠ SIGHASH_NONE →
        sapHashSequence P tx t =
          P.blake2b (pers16 "ZcashSequencHash")
            ((tx.inputs.map fun i => u32LE i.sequenceNumber).flatten))
    ∧ (t &&& SIGHASH_ANYONECANPAY ≠ 0 ∨ t &&& 31 = SIGHASH_SINGLE
        ∨ t &&& 31 = SIGHASH_NONE → sapHashSequence P tx t = ZERO32)
    ∧ (t &&& SIGHASH_ANYONECANPAY ≠ 0 → t &&& 31 = SIGHASH_SINGLE →
        sapHashPrevouts P tx t = ZERO32 ∧ sapHashSequence P tx t = ZERO32) := by
  refine ⟨fun h => ?_, fun h => ?_, fun h h3 h2 => ?_, fun h => ?_, fun h _ => ?_⟩
  · rw [sapHashPrevouts, if_pos h]; rfl
  · rw [sapHashPrevouts, if_neg h]
  · rw [sapHashSequence, if_pos ⟨h, h3, h2⟩]; rfl
  · rw [sapHashSequence, if_neg (by tauto)]
  · exact ⟨by rw [sapHashPrevouts, if_neg h], by rw [sapHashSequence, if_neg (by tauto)]⟩

/-- Witness for C4 at the SINGLE|ANYONECANPAY type `0x83`. -/
theorem sapling_prevouts_sequence_witness :
    (0x83 &&& SIGHASH_ANYONECANPAY : Nat) ≠ 0 ∧ (0x83 &&& 31 : Nat) = SIGHASH_SINGLE ∧
      sapHashPrevouts P0 tx4 0x83 = ZERO32 ∧ sapHashSequence P0 tx4 0x83 = ZERO32 :=
  ⟨by decide, by decide,
    (sapling_prevouts_sequence P0 tx4 0x83).2.2.2.2 (by decide) (by decide)⟩

/-! ### C5: the Sapling-era outputs sub-hash -/

/-- C5: the outputs sub-hash is the personalized hash of only output
`inputNumber` for selector SINGLE in range; the all-zero 32-byte value for
SINGLE out of range and for NONE; and the personalized hash of every
output in order for every other selector value. -/
theorem sapling_outputs (P : Prims) (tx : Transaction) (t n : Nat) :
    (t &&& 31 = SIGHASH_SINGLE → n < tx.outputs.length →
      sapHashOutputs P tx t n =
        P.blake2b (pers16 "ZcashOutputsHash") (outputToBuffer (tx.outputs.getD n default)))
    ∧ (t &&& 31 = SIGHASH_SINGLE → tx.outputs.length ≤ n →
        sapHashOutputs P tx t n = ZERO32)
    ∧ (t &&& 31 = SIGHASH_NONE → sapHashOutputs P tx t n = ZERO32)
    ∧ (t &&& 31 ≠ SIGHASH_SINGLE → t &&& 31 ≠ SIGHASH_NONE →
        sapHashOutputs P tx t n =
          P.blake2b (pers16 "ZcashOutputsHash") ((tx.outputs.map outputToBuffer).flatten)) := by
  refine ⟨fun h3 hr => ?_, fun h3 hr => ?_, fun h2 => ?_, fun h3 h2 => ?_⟩
  · rw [sapHashOutputs, if_neg (by simp [h3]), if_pos ⟨h3, hr⟩]; rfl
  · rw [sapHashOutputs, if_neg (by simp [h3]), if_neg (by omega)]
  · rw [sapHashOutputs, if_neg (by simp [h2]),
      if_neg (by simp [h2, SIGHASH_NONE, SIGHASH_SINGLE])]
  · rw [sapHashOutputs, if_pos ⟨h3, h2⟩]; rfl

/-- Witness for C5 at selector SINGLE with the input index in range. -/
theorem sapling_outputs_witness :
    (3 &&& 31 : Nat) = SIGHASH_SINGLE ∧ 0 < tx4.outputs.length ∧
      sapHashOutputs P0 tx4 3 0 =
        P0.blake2b (pers16 "ZcashOutputsHash") (outputToBuffer (tx4.outputs.getD 0 default)) :=
  ⟨by decide, by decide, (sapling_outputs P0 tx4 3 0).1 (by decide) (by decide)⟩

/-! ### C6: the legacy override pipeline -/

theorem length_legacyOutputs_single (tx : Transaction) (t n : Nat)
    (h3 : t &&& 31 = SIGHASH_SINGLE) (hn : n < tx.outputs.length) :
    (legacyOutputs tx t n).length = n + 1 := by
  unfold legacyOutputs
  rw [if_neg (by simp [h3, SIGHASH_NONE, SIGHASH_SINGLE]), if_pos h3]
  simp
  omega

theorem getD_legacyOutputs_single (tx : Transaction) (t n i : Nat)
    (h3 : t &&& 31 = SIGHASH_SINGLE) (hn : n < tx.outputs.length) (hi : i ≤ n) :
    (legacyOutputs tx t n).getD i default =
      if i < n then nullOutput else tx.outputs.getD i default := by
  unfold legacyOutputs
  rw [if_neg (by simp [h3, SIGHASH_NONE, SIGHASH_SINGLE]), if_pos h3]
  have hl : i < ((tx.outputs.take (n + 1)).enum.map fun p =>
      if p.1 < n then nullOutput else p.2).length := by
    simp
    omega
  rw [List.getD_eq_getElem _ _ hl, List.getD_eq_getElem _ _ (by omega)]
  simp [List.getElem_enum, List.getElem_take]

/-- C6: in the legacy builder, when the low selector is NONE or SINGLE the
sequence number of every input other than `inputNumber` is zeroed (the
signing input keeps its own); when it is SINGLE with `inputNumber` below
the output count, the output list is truncated to `inputNumber + 1`
entries and every output before `inputNumber` becomes the null output
(value `0xffffffffffffffff`, empty script) while output `inputNumber` is
kept; and the ANYONECANPAY collapse is applied last, so the surviving
single input already carries the substituted script and its original
sequence number. -/
theorem legacy_overrides (tx : Transaction) (t n : Nat) (sub : Script)
    (hn : n < tx.inputs.length) :
    ((t &&& 31 = SIGHASH_NONE ∨ t &&& 31 = SIGHASH_SINGLE) →
      ∀ i, i < tx.inputs.length → i ≠ n →
        ((legacySeqAdjusted tx t n sub).getD i default).sequenceNumber = 0)
    ∧ ((legacySeqAdjusted tx t n sub).getD n default).sequenceNumber
        = (tx.inputs.getD n default).sequenceNumber
    ∧ (t &&& 31 = SIGHASH_SINGLE → n < tx.outputs.length →
        (legacyOutputs tx t n).length = n + 1
        ∧ (∀ i, i < n → (legacyOutputs tx t n).getD i default = nullOutput)
        ∧ (legacyOutputs tx t n).getD n default = tx.outputs.getD n default)
    ∧ (t &&& SIGHASH_ANYONECANPAY ≠ 0 →
        (legacyTxCopy tx t n sub).inputs =
          [{ tx.inputs.getD n default with script := sub }]) := by
  refine ⟨fun h i hi hne => ?_, ?_, fun h3 ho => ?_, fun hacp => ?_⟩
  · unfold legacySeqAdjusted
    rw [if_pos h, getD_zeroOtherSequences _ _ _
        (by rw [length_legacyInputsScripts]; exact hi), if_neg hne]
  · rw [getD_legacySeqAdjusted_self tx t n sub hn]
  · refine ⟨length_legacyOutputs_single tx t n h3 ho, fun i hi => ?_, ?_⟩
    · rw [getD_legacyOutputs_single tx t n i h3 ho (by omega), if_pos hi]
    · rw [getD_legacyOutputs_single tx t n n h3 ho (by omega), if_neg (by omega)]
  · unfold legacyTxCopy
    simp only [if_pos hacp]
    rw [getD_legacySeqAdjusted_self tx t n sub hn]

/-- Witness for C6 on a two-input transaction under SINGLE|ANYONECANPAY. -/
theorem legacy_overrides_witness :
    0 < tx2in.inputs.length ∧ (0x83 &&& 31 : Nat) = SIGHASH_SINGLE ∧
      (0x83 &&& SIGHASH_ANYONECANPAY : Nat) ≠ 0 ∧
      (legacyTxCopy tx2in 0x83 0 [] ).inputs =
        [{ tx2in.inputs.getD 0 default with script := ([] : Script) }] :=
  ⟨by decide, by decide, by decide,
    (legacy_overrides tx2in 0x83 0 [] (by decide)).2.2.2 (by decide)⟩

/-! ### C10: selectors other than NONE and SINGLE behave as ALL -/

theorem and128_dichotomy (t : Nat) : t &&& 128 = 0 ∨ t &&& 128 = 128 := by
  have h := Nat.and_two_pow t 7
  norm_num at h
  rcases Bool.eq_false_or_eq_true (t.testBit 7) with hb | hb <;> rw [hb] at h <;>
    simp at h <;> [right; left] <;> omega

/-- C10: for every signature type whose low five bits are neither NONE nor
SINGLE (including 0 and unknown selector values), the legacy builder
leaves all sequence numbers and the full output list intact — its
transaction copy coincides with the one built for the same ANYONECANPAY
bit combined with SIGHASH_ALL — and the Sapling-era builder hashes every
output and, when ANYONECANPAY is clear, every sequence number. -/
theorem unknown_selector_like_all (P : Prims) (tx : Transaction) (t n : Nat) (sub : Script)
    (h2 : t &&& 31 ≠ SIGHASH_NONE) (h3 : t &&& 31 ≠ SIGHASH_SINGLE) :
    legacySeqAdjusted tx t n sub = legacyInputsScripts tx n sub
    ∧ legacyOutputs tx t n = tx.outputs
    ∧ legacyTxCopy tx t n sub
        = legacyTxCopy tx ((t &&& SIGHASH_ANYONECANPAY) ||| SIGHASH_ALL) n sub
    ∧ sapHashOutputs P tx t n = GetOutputsHash P tx none
    ∧ (t &&& SIGHASH_ANYONECANPAY = 0 → sapHashSequence P tx t = GetSequenceHash P tx) := by
  have e1 : legacySeqAdjusted tx t n sub = legacyInputsScripts tx n sub := by
    unfold legacySeqAdjusted
    rw [if_neg (by tauto)]
  have e2 : legacyOutputs tx t n = tx.outputs := by
    unfold legacyOutputs
    rw [if_neg h2, if_neg h3]
  have hsel : ((t &&& SIGHASH_ANYONECANPAY) ||| SIGHASH_ALL) &&& 31 = SIGHASH_ALL := by
    rcases and128_dichotomy t with h | h <;>
      simp [SIGHASH_ANYONECANPAY, SIGHASH_ALL, h]
    decide
  have e1' : legacySeqAdjusted tx ((t &&& SIGHASH_ANYONECANPAY) ||| SIGHASH_ALL) n sub
      = legacyInputsScripts tx n sub := by
    unfold legacySeqAdjusted
    rw [if_neg (by rw [hsel]; simp [SIGHASH_ALL, SIGHASH_NONE, SIGHASH_SINGLE])]
  have e2' : legacyOutputs tx ((t &&& SIGHASH_ANYONECANPAY) ||| SIGHASH_ALL) n
      = tx.outputs := by
    unfold legacyOutputs
    rw [if_neg (by rw [hsel]; simp [SIGHASH_ALL, SIGHASH_NONE]),
      if_neg (by rw [hsel]; simp [SIGHASH_ALL, SIGHASH_SINGLE])]
  have hg : (((t &&& SIGHASH_ANYONECANPAY) ||| SIGHASH_ALL) &&& SIGHASH_ANYONECANPAY ≠ 0)
      = (t &&& SIGHASH_ANYONECANPAY ≠ 0) := by
    rcases and128_dichotomy t with h | h <;>
      simp [SIGHASH_ANYONECANPAY, SIGHASH_ALL, h]
  refine ⟨e1, e2, ?_, ?_, fun h => ?_⟩
  · unfold legacyTxCopy
    rw [e1, e1', e2, e2']
    simp only [hg]
  · rw [sapHashOutputs, if_pos ⟨h3, h2⟩]
  · rw [sapHashSequence, if_pos ⟨h, h3, h2⟩]

/-- Witness for C10 at the unknown selector value 0. -/
theorem unknown_selector_like_all_witness :
    (0 &&& 31 : Nat) ≠ SIGHASH_NONE ∧ (0 &&& 31 : Nat) ≠ SIGHASH_SINGLE ∧
      legacyOutputs tx2in 0 0 = tx2in.outputs ∧
      sapHashOutputs P0 tx2in 0 0 = GetOutputsHash P0 tx2in none :=
  ⟨by decide, by decide,
    (unknown_selector_like_all P0 tx2in 0 0 [] (by decide) (by decide)).2.1,
    (unknown_selector_like_all P0 tx2in 0 0 [] (by decide) (by decide)).2.2.2.1⟩

/-! ### C7: legacy ANYONECANPAY digests ignore the other inputs -/

/-- C7: for version < 4 with ANYONECANPAY set, the legacy digest is a
function only of the transaction's version, lock time and outputs, the
signing input's own fields, the subscript and the signature type: two
transactions agreeing on those (in particular two that differ only in
another input's script or sequence number) produce the identical digest. -/
theorem legacy_acp_independent (P : Prims) (tx1 tx2 : Transaction) (t n : Nat)
    (sub : Script) (hv : tx1.version < 4) (hveq : tx1.version = tx2.version)
    (hacp : t &&& SIGHASH_ANYONECANPAY ≠ 0)
    (hn1 : n < tx1.inputs.length) (hn2 : n < tx2.inputs.length)
    (hin : tx1.inputs.getD n default = tx2.inputs.getD n default)
    (hout : tx1.outputs = tx2.outputs) (hlock : tx1.nLockTime = tx2.nLockTime) :
    sighash P tx1 t n sub = sighash P tx2 t n sub := by
  unfold sighash
  rw [if_neg (by omega), if_neg (by omega)]
  unfold sighashLegacy
  have hoc : tx1.outputs.length = tx2.outputs.length := by rw [hout]
  by_cases hbug : t &&& 31 = SIGHASH_SINGLE ∧ tx1.outputs.length ≤ n
  · rw [if_pos hbug, if_pos ⟨hbug.1, hoc ▸ hbug.2⟩]
  · rw [if_neg hbug, if_neg (fun h => hbug ⟨h.1, hoc ▸ h.2⟩)]
    have hocongr : legacyOutputs tx1 t n = legacyOutputs tx2 t n := by
      unfold legacyOutputs
      rw [hout]
    have hi1 := getD_legacySeqAdjusted_self tx1 t n (removeCodeseparators sub) hn1
    have hi2 := getD_legacySeqAdjusted_self tx2 t n (removeCodeseparators sub) hn2
    simp only [legacyTxCopy, txToBuffer, if_pos hacp]
    rw [hi1, hi2, hin, hveq, hlock, hocongr]

/-- Witness for C7: two concrete two-input transactions differing only in
the second input's script and sequence number give the same digest for
ALL|ANYONECANPAY on input 0. -/
theorem legacy_acp_independent_witness :
    tx2in.version < 4 ∧ tx2in.version = tx2in'.version ∧
      (0x81 &&& SIGHASH_ANYONECANPAY : Nat) ≠ 0 ∧
      0 < tx2in.inputs.length ∧ 0 < tx2in'.inputs.length ∧
      tx2in.inputs.getD 0 default = tx2in'.inputs.getD 0 default ∧
      tx2in.outputs = tx2in'.outputs ∧ tx2in.nLockTime = tx2in'.nLockTime ∧
      sighash P0 tx2in 0x81 0 [0x51] = sighash P0 tx2in' 0x81 0 [0x51] :=
  ⟨by decide, by decide, by decide, by decide, by decide, by decide, by decide, by decide,
    legacy_acp_independent P0 tx2in tx2in' 0x81 0 [0x51] (by decide) (by decide)
      (by decide) (by decide) (by decide) (by decide) (by decide) (by decide)⟩

/-! ### C1: sign/verify round trip -/

/-- C1: `sign` computes the digest via the dispatcher, signs it with the
little-endian curve primitive and attaches the signature type; `verify`
recomputes the digest from the signature's carried type, so for a private
key whose matching public key makes the curve primitive accept its own
signatures, `verify` over a signature freshly produced by `sign` returns
`.ok true` for every transaction, signature type, input index and
subscript. -/
theorem sign_verify_roundtrip (P : Prims) (tx : Transaction) (k pk t n : Nat)
    (sub : Script) (_hn : n < tx.inputs.length)
    (hpk : ∀ h, P.ecdsaVerifyLittle h (P.ecdsaSignLittle h k) pk = true) :
    (sign P tx k t n sub).nhashtype = some t
    ∧ (sign P tx k t n sub).value = P.ecdsaSignLittle (sighash P tx t n sub) k
    ∧ verify P (some tx) (some (sign P tx k t n sub)) pk n sub = .ok true := by
  refine ⟨rfl, rfl, ?_⟩
  show Except.ok (P.ecdsaVerifyLittle (sighash P tx t n sub)
    (P.ecdsaSignLittle (sighash P tx t n sub) k) pk) = Except.ok true
  rw [hpk]

/-- Witness for C1 with the concrete primitive instance (public key equal
to the private key) on the legacy transaction. -/
theorem sign_verify_roundtrip_witness :
    0 < tx0.inputs.length
    ∧ (∀ h, P0.ecdsaVerifyLittle h (P0.ecdsaSignLittle h 5) 5 = true)
    ∧ verify P0 (some tx0) (some (sign P0 tx0 5 1 0 [0x51])) 5 0 [0x51] = .ok true :=
  ⟨by decide, fun h => by simp [P0],
    (sign_verify_roundtrip P0 tx0 5 5 1 0 [0x51] (by decide)
      (fun h => by simp [P0])).2.2⟩

/-! ### C8: verify's precondition checks and boolean result -/

/-- C8: `verify` reports a precondition violation exactly when the
transaction is absent, the signature is absent, or the signature carries
no signature type; every well-formed call returns `.ok` of the boolean
produced by the curve primitive on the recomputed digest — an invalid
signature yields `.ok false`, never an error. -/
theorem verify_preconditions (P : Prims) (pk i : Nat) (sub : Script) :
    (∀ otx osig, verify P otx osig pk i sub = .error () ↔
      otx = none ∨ osig = none ∨ ∃ s, osig = some s ∧ s.nhashtype = none)
    ∧ ∀ tx s t, s.nhashtype = some t →
        verify P (some tx) (some s) pk i sub =
          .ok (P.ecdsaVerifyLittle (sighash P tx t i sub) s.value pk) := by
  constructor
  · intro otx osig
    cases otx with
    | none => simp [verify]
    | some tx =>
      cases osig with
      | none => simp [verify]
      | some s =>
        cases hs : s.nhashtype with
        | none => simp [verify, hs]
        | some t => simp [verify, hs]
  · intro tx s t ht
    simp [verify, ht]

/-- Witness for C8: a signature carrying no type is rejected as a
precondition violation, and a well-formed call returns the curve
primitive's boolean. -/
theorem verify_preconditions_witness :
    verify P0 (some tx0) (some { value := 0, nhashtype := none }) 5 0 [] = .error () :=
  ((verify_preconditions P0 5 0 []).1 (some tx0)
      (some { value := 0, nhashtype := none })).mpr
    (Or.inr (Or.inr ⟨{ value := 0, nhashtype := none }, rfl, rfl⟩))

/-! ### C9: no call mutates the caller's transaction or subscript -/

/-- C9: the statement-level run of the dispatcher returns the caller's
transaction and subscript byte-for-byte unchanged — every override is
applied to the per-call copies only — and its digest coincides with the
digest of the value-level embedding. -/
theorem sighash_no_mutation (P : Prims) (tx : Transaction) (t n : Nat) (s : Script) :
    (sighashRun P tx t n s).2.1 = tx ∧ (sighashRun P tx t n s).2.2 = s
    ∧ (sighashRun P tx t n s).1 = sighash P tx t n s := by
  refine ⟨?_, ?_, ?_⟩ <;>
  · by_cases hv : 4 ≤ tx.version
    · simp [sighashRun, sighash, hv]
    · simp only [sighashRun, sighash, if_neg hv]
      by_cases c2 : t &&& 31 = SIGHASH_NONE
      · have nc3 : t &&& 31 ≠ SIGHASH_SINGLE := by
          rw [c2]
          decide
        by_cases ca : t &&& SIGHASH_ANYONECANPAY = 0 <;>
          simp [sighashLegacyRun, sighashLegacy, legacyFinish, legacyTxCopy,
            legacySeqAdjusted, legacyOutputs, shallowCopySpec, scriptCopySpec,
            c2, nc3, ca, SIGHASH_NONE, SIGHASH_SINGLE]
      · by_cases c3 : t &&& 31 = SIGHASH_SINGLE
        · by_cases cb : tx.outputs.length ≤ n <;>
          by_cases ca : t &&& SIGHASH_ANYONECANPAY = 0 <;>
            simp [sighashLegacyRun, sighashLegacy, legacyFinish, legacyTxCopy,
              legacySeqAdjusted, legacyOutputs, shallowCopySpec, scriptCopySpec,
              c2, c3, cb, ca, SIGHASH_NONE, SIGHASH_SINGLE]
        · by_cases ca : t &&& SIGHASH_ANYONECANPAY = 0 <;>
            simp [sighashLegacyRun, sighashLegacy, legacyFinish, legacyTxCopy,
              legacySeqAdjusted, legacyOutputs, shallowCopySpec, scriptCopySpec,
              c2, c3, ca]

end Sighash
